import Mathlib

/-!
Shallow embedding of `src/stockanomalydetectionapp/anomalydetection.py`,
the per-event anomaly-detection pipeline: deduplication, the High-Volume and
Rapid-Price-Change rules, the online isolation-forest outlier scorer, and the
`process_trade` orchestrator.

Modelling conventions:
* Python numbers are embedded as `ℚ`; `np.std xs = 0 ↔ npVar xs = 0`, so the
  zero-standard-deviation degeneracy is tracked through the (exactly
  computable) population variance `npVar`.
* `collections.defaultdict` is embedded as `DMap`: an association list plus the
  creation-time default.  Crucially, reading a missing key INSERTS the default
  entry, exactly as Python's `defaultdict.__getitem__` does.
* A `deque(maxlen=100)` is a list whose push evicts from the front past 100.
* Python exceptions are embedded as `PyErr`.  Module-level globals mutated
  before a raise stay mutated, so every operation returns its result
  (`Except PyErr _`) together with the state as left at the return or raise.
* `sklearn.ensemble.IsolationForest` is external library code: the fitted
  model is embedded as the corpus snapshot passed to `fit`, and
  `decision_function` as an arbitrary parameter `df : DecisionFun` of the
  pipeline (every theorem below holds for all `df`).
* Trade symbols are Python strings; sequence identifiers are embedded as `Nat`.
  A decoded JSON payload is a record whose four fields may each be absent
  (`TradeRec`); accessing an absent field raises `KeyError`.
-/

set_option autoImplicit false

namespace StockAnomaly

/-- One `PyErr` per Python exception class the embedded code can raise. -/
inductive PyErr : Type
  | keyError
  | zeroDivisionError
  | valueError
  deriving DecidableEq

/-- Result of one embedded Python call: a value, or a raised exception. -/
inductive PyResult (α : Type) : Type
  | ok (val : α)
  | raised (e : PyErr)
  deriving DecidableEq

/-- `collections.defaultdict`: association list plus creation-time default. -/
structure DMap (α : Type) : Type where
  entries : List (String × α)
  dflt : α
  deriving DecidableEq

/-- Replace the binding of `k` (append a fresh binding if absent). -/
def setEntries {α : Type} : List (String × α) → String → α → List (String × α)
  | [], k, v => [(k, v)]
  | e :: es, k, v => if e.1 = k then (k, v) :: es else e :: setEntries es k v

/-- The value `m[k]` would yield, without the insertion side effect. -/
def DMap.getdVal {α : Type} (m : DMap α) (k : String) : α :=
  (m.entries.lookup k).getD m.dflt

/-- `m[k]` on a `defaultdict`: the value, and the map after the read
(reading a missing key inserts the default entry). -/
def DMap.getd {α : Type} (m : DMap α) (k : String) : α × DMap α :=
  match m.entries.lookup k with
  | some v => (v, m)
  | none => (m.dflt, ⟨m.entries ++ [(k, m.dflt)], m.dflt⟩)

/-- `m[k] = v`. -/
def DMap.set {α : Type} (m : DMap α) (k : String) (v : α) : DMap α :=
  ⟨setEntries m.entries k v, m.dflt⟩

/-- `deque(maxlen=100).append`: push at the back, evict from the front once
the length exceeds 100. -/
def dequePush (xs : List ℚ) (p : ℚ) : List ℚ :=
  let ys := xs ++ [p]
  ys.drop (ys.length - 100)

/-- A decoded trade payload (`json.loads` result or a passed-through dict):
each required field may be absent, in which case `d[field]` raises `KeyError`. -/
structure TradeRec : Type where
  sequence? : Option Nat
  symbol? : Option String
  price? : Option ℚ
  size? : Option ℚ
  deriving DecidableEq

/-- A raw message: either a string that fails `json.loads`
(raising `json.JSONDecodeError`), or a decoded record. -/
inductive RawPayload : Type
  | malformedText
  | obj (trade_data : TradeRec)
  deriving DecidableEq

/-- The state of the online outlier scorer: the global price corpus
`fit_prices_all`, the `is_fitted` flag, and the fitted model (embedded as the
corpus snapshot handed to `IsolationForest.fit`, `none` before any fit). -/
structure ScorerState : Type where
  fit_prices : List ℚ
  is_fitted : Bool
  model : Option (List ℚ)
  deriving DecidableEq

/-- All module-level mutable state of `anomalydetection.py`. -/
structure PipelineState : Type where
  high_volume_threshold : DMap ℚ
  rapid_price_change_threshold : DMap ℚ
  transaction_history : DMap (List ℚ)
  scorer : ScorerState
  processed_sequence : List Nat
  deriving DecidableEq

/-- The module-level state as initialised at import time. -/
def initState : PipelineState where
  high_volume_threshold := ⟨[], 10000⟩
  rapid_price_change_threshold := ⟨[], 1/20⟩
  transaction_history := ⟨[], []⟩
  scorer := ⟨[], false, none⟩
  processed_sequence := []

/-- The message `producer.produce` publishes for an anomalous trade:
key `str(trade_data["sequence"])` (kept as the sequence) plus the labels. -/
structure Emission : Type where
  key : Nat
  anomalies : List String
  deriving DecidableEq

/-- Outcome of one `process_trade` call: the published message, if any, and
the uncaught exception, if one propagated to the caller. -/
structure ProcOut : Type where
  emitted : Option Emission
  err : Option PyErr
  deriving DecidableEq

/-- `np.mean`. -/
def npMean (xs : List ℚ) : ℚ := xs.sum / xs.length

/-- The population variance (`np.std` squared): `np.std xs = 0 ↔ npVar xs = 0`,
which is the only aspect of the standard deviation the claims depend on. -/
def npVar (xs : List ℚ) : ℚ :=
  (xs.map (fun x => (x - npMean xs) ^ 2)).sum / xs.length

/-- Abstract `IsolationForest.decision_function`: given the fitted snapshot,
the current price, and the corpus at scoring time (which determines the
normalisation), an outlier score. -/
def DecisionFun : Type := Option (List ℚ) → ℚ → List ℚ → ℚ

/-- `high_volume_rule(trade_data, high_volume_threshold)`:
`trade_data["size"] > high_volume_threshold[trade_data['symbol']]`.
Evaluation order follows Python: the `size` access, then the `symbol` access,
then the defaultdict threshold read (which may insert the default entry). -/
def high_volume_rule (trade_data : TradeRec) (hvt : DMap ℚ) :
    PyResult Bool × DMap ℚ :=
  match trade_data.size? with
  | none => (.raised .keyError, hvt)
  | some size =>
    match trade_data.symbol? with
    | none => (.raised .keyError, hvt)
    | some symbol =>
      let tm := hvt.getd symbol
      (.ok (decide (tm.1 < size)), tm.2)

/-- `rapid_price_change(trade_data, history, rapid_price_change_threshold)`.
First sighting (empty history) records the price and returns `False`;
otherwise `price_change = abs((current_price - last_price)/last_price)` —
a `ZeroDivisionError` when `last_price == 0` — then the price is appended and
the strict comparison against the (defaultdict) threshold decides the fire. -/
def rapid_price_change (trade_data : TradeRec) (history : DMap (List ℚ))
    (rpct : DMap ℚ) : PyResult Bool × DMap (List ℚ) × DMap ℚ :=
  match trade_data.symbol? with
  | none => (.raised .keyError, history, rpct)
  | some symbol =>
    match trade_data.price? with
    | none => (.raised .keyError, history, rpct)
    | some current_price =>
      let hh := history.getd symbol
      match hh.1.getLast? with
      | none => (.ok false, hh.2.set symbol [current_price], rpct)
      | some last_price =>
        if last_price = 0 then (.raised .zeroDivisionError, hh.2, rpct)
        else
          let price_change := |(current_price - last_price) / last_price|
          let h₂ := hh.2.set symbol (dequePush hh.1 current_price)
          let tr := rpct.getd symbol
          (.ok (decide (tr.1 < price_change)), h₂, tr.2)

/-- `isolation_forest_anomaly(trade_data, fit_prices)`.  The price is appended
unconditionally; below 100 samples the call returns `False`.  The corpus is
then normalised by its own mean/std: a zero standard deviation yields NaN
(numpy emits a warning, not an error), and sklearn's `fit` and
`decision_function` raise `ValueError` on NaN input.  At an exact multiple of
1000 samples the model is refit on the whole corpus and `is_fitted` set; while
unfitted the call returns `False`; once fitted the trade's normalised price is
scored and negative scores flag the anomaly. -/
def isolation_forest_anomaly (df : DecisionFun) (trade_data : TradeRec)
    (s : ScorerState) : PyResult Bool × ScorerState :=
  match trade_data.price? with
  | none => (.raised .keyError, s)
  | some current_price =>
    let fit_prices := s.fit_prices ++ [current_price]
    if fit_prices.length < 100 then
      (.ok false, { s with fit_prices := fit_prices })
    else
      if fit_prices.length % 1000 = 0 then
        if npVar fit_prices = 0 then
          (.raised .valueError, { s with fit_prices := fit_prices })
        else
          let s₁ : ScorerState :=
            { fit_prices := fit_prices, is_fitted := true, model := some fit_prices }
          (.ok (decide (df s₁.model current_price fit_prices < 0)), s₁)
      else
        let s₁ : ScorerState := { s with fit_prices := fit_prices }
        if s₁.is_fitted then
          if npVar fit_prices = 0 then (.raised .valueError, s₁)
          else (.ok (decide (df s₁.model current_price fit_prices < 0)), s₁)
        else (.ok false, s₁)

/-- `process_trade(raw_trade_data)`: decode (only `json.JSONDecodeError` is
caught), dedup on `sequence` (recorded as seen BEFORE the rules run), run the
three detectors in order, and publish when some label fired. -/
def process_trade (df : DecisionFun) (raw_trade_data : RawPayload)
    (σ : PipelineState) : ProcOut × PipelineState :=
  match raw_trade_data with
  | .malformedText => (⟨none, none⟩, σ)
  | .obj trade_data =>
    match trade_data.sequence? with
    | none => (⟨none, some .keyError⟩, σ)
    | some sequence =>
      if sequence ∈ σ.processed_sequence then (⟨none, none⟩, σ)
      else
        let σ₀ :=
          { σ with processed_sequence := sequence :: σ.processed_sequence }
        let hvr := high_volume_rule trade_data σ₀.high_volume_threshold
        let σ₁ := { σ₀ with high_volume_threshold := hvr.2 }
        match hvr.1 with
        | .raised e => (⟨none, some e⟩, σ₁)
        | .ok hv =>
          let rpr := rapid_price_change trade_data σ₁.transaction_history
            σ₁.rapid_price_change_threshold
          let σ₂ :=
            { σ₁ with
              transaction_history := rpr.2.1
              rapid_price_change_threshold := rpr.2.2 }
          match rpr.1 with
          | .raised e => (⟨none, some e⟩, σ₂)
          | .ok rpc =>
            let ifr := isolation_forest_anomaly df trade_data σ₂.scorer
            let σ₃ := { σ₂ with scorer := ifr.2 }
            match ifr.1 with
            | .raised e => (⟨none, some e⟩, σ₃)
            | .ok iso =>
              let anomalies :=
                (if hv then ["High Volume"] else []) ++
                  (if rpc then ["Rapid Price Change"] else []) ++
                    (if iso then ["Isolation Forest"] else [])
              if anomalies = [] then (⟨none, none⟩, σ₃)
              else (⟨some ⟨sequence, anomalies⟩, none⟩, σ₃)

/-! ### Helper lemmas about the embedded data structures -/

/-- A concrete symbol used by the concrete witnesses and counterexamples. -/
def symX : String := "X"

theorem lookup_setEntries_self {α : Type} (es : List (String × α)) (k : String)
    (v : α) : (setEntries es k v).lookup k = some v := by
  induction es with
  | nil => simp [setEntries, List.lookup]
  | cons e es ih =>
    obtain ⟨a, b⟩ := e
    by_cases h : a = k
    · subst h; simp [setEntries, List.lookup]
    · have hba : (k == a) = false := beq_eq_false_iff_ne.mpr (Ne.symm h)
      simp [setEntries, h, List.lookup, hba, ih]

theorem DMap.getdVal_set_self {α : Type} (m : DMap α) (k : String) (v : α) :
    (m.set k v).getdVal k = v := by
  simp [DMap.set, DMap.getdVal, lookup_setEntries_self]

theorem DMap.getd_fst {α : Type} (m : DMap α) (k : String) :
    (m.getd k).1 = m.getdVal k := by
  unfold DMap.getd DMap.getdVal
  cases h : m.entries.lookup k <;> simp [h]

theorem DMap.getd_snd_getdVal {α : Type} (m : DMap α) (k k' : String) :
    (m.getd k).2.getdVal k' = m.getdVal k' := by
  unfold DMap.getd
  cases h : m.entries.lookup k with
  | some v => rfl
  | none =>
    unfold DMap.getdVal
    simp only
    cases h' : m.entries.lookup k' with
    | some w => simp [List.lookup_append, h']
    | none =>
      by_cases hk : k' = k
      · subst hk; simp [List.lookup_append, h', List.lookup]
      · have hba : (k' == k) = false := beq_eq_false_iff_ne.mpr hk
        simp [List.lookup_append, h', List.lookup, hba]

theorem DMap.getd_snd_dflt {α : Type} (m : DMap α) (k : String) :
    (m.getd k).2.dflt = m.dflt := by
  unfold DMap.getd
  cases h : m.entries.lookup k <;> rfl

theorem dequePush_getLast? (xs : List ℚ) (p : ℚ) :
    (dequePush xs p).getLast? = some p := by
  unfold dequePush
  rw [List.getLast?_drop, if_neg (by simp; omega), List.getLast?_concat]

theorem sum_nonneg_all_zero (xs : List ℚ) (h0 : ∀ x ∈ xs, 0 ≤ x)
    (hs : xs.sum = 0) : ∀ x ∈ xs, x = 0 := by
  induction xs with
  | nil => intro x hx; cases hx
  | cons y ys ih =>
    have hy : 0 ≤ y := h0 y (by simp)
    have hys : 0 ≤ ys.sum := List.sum_nonneg fun x hx => h0 x (by simp [hx])
    have hsum : y + ys.sum = 0 := by simpa using hs
    intro x hx
    rcases List.mem_cons.mp hx with rfl | hx'
    · linarith
    · exact ih (fun z hz => h0 z (by simp [hz])) (by linarith) x hx'

theorem npMean_const (a : ℚ) (xs : List ℚ) (hne : xs ≠ [])
    (h : ∀ x ∈ xs, x = a) : npMean xs = a := by
  unfold npMean
  rw [List.sum_eq_card_nsmul xs a h, nsmul_eq_mul]
  have hlen : (xs.length : ℚ) ≠ 0 := by
    simp [List.length_eq_zero, hne]
  field_simp

theorem npVar_const (a : ℚ) (xs : List ℚ) (h : ∀ x ∈ xs, x = a) :
    npVar xs = 0 := by
  unfold npVar
  rcases eq_or_ne xs [] with rfl | hne
  · simp
  · have hsum : (xs.map fun x => (x - npMean xs) ^ 2).sum = 0 := by
      apply List.sum_eq_zero
      intro y hy
      obtain ⟨x, hx, rfl⟩ := List.mem_map.mp hy
      rw [h x hx, npMean_const a xs hne h]
      ring
    rw [hsum]
    simp

theorem npVar_ne_zero (a b : ℚ) (xs : List ℚ) (ha : a ∈ xs) (hb : b ∈ xs)
    (hab : a ≠ b) : npVar xs ≠ 0 := by
  intro h
  have hne : xs ≠ [] := fun e => by subst e; cases ha
  have hlen : (xs.length : ℚ) ≠ 0 := by simp [List.length_eq_zero, hne]
  unfold npVar at h
  rcases div_eq_zero_iff.mp h with hs | hl
  · have hall := sum_nonneg_all_zero _
      (fun x hx => by
        obtain ⟨z, _, rfl⟩ := List.mem_map.mp hx
        positivity) hs
    have haz : (a - npMean xs) ^ 2 = 0 :=
      hall _ (List.mem_map_of_mem _ ha)
    have hbz : (b - npMean xs) ^ 2 = 0 :=
      hall _ (List.mem_map_of_mem _ hb)
    have ha' : a = npMean xs := by
      have := (pow_eq_zero_iff (two_ne_zero)).mp haz
      linarith [sub_eq_zero.mp this]
    have hb' : b = npMean xs := by
      have := (pow_eq_zero_iff (two_ne_zero)).mp hbz
      linarith [sub_eq_zero.mp this]
    exact hab (ha'.trans hb'.symm)
  · exact hlen hl

/-! ### Behaviour of the two rules -/

theorem high_volume_rule_eq (trade_data : TradeRec) (symbol : String) (size : ℚ)
    (m : DMap ℚ) (hsz : trade_data.size? = some size)
    (hsym : trade_data.symbol? = some symbol) :
    high_volume_rule trade_data m =
      (.ok (decide (m.getdVal symbol < size)), (m.getd symbol).2) := by
  unfold high_volume_rule
  rw [hsz, hsym]
  dsimp only
  rw [DMap.getd_fst]

theorem rapid_price_change_first (trade_data : TradeRec) (symbol : String)
    (p : ℚ) (history : DMap (List ℚ)) (rpct : DMap ℚ)
    (hsym : trade_data.symbol? = some symbol)
    (hp : trade_data.price? = some p)
    (hfirst : history.getdVal symbol = []) :
    rapid_price_change trade_data history rpct =
      (.ok false, (history.getd symbol).2.set symbol [p], rpct) := by
  unfold rapid_price_change
  rw [hsym, hp]
  dsimp only
  have h1 : (history.getd symbol).1 = [] := by rw [DMap.getd_fst, hfirst]
  rw [h1]
  rfl

theorem rapid_price_change_step (trade_data : TradeRec) (symbol : String)
    (p last : ℚ) (history : DMap (List ℚ)) (rpct : DMap ℚ)
    (hsym : trade_data.symbol? = some symbol)
    (hp : trade_data.price? = some p)
    (hlast : (history.getdVal symbol).getLast? = some last)
    (hnz : last ≠ 0) :
    rapid_price_change trade_data history rpct =
      (.ok (decide (rpct.getdVal symbol < |(p - last) / last|)),
        (history.getd symbol).2.set symbol
          (dequePush (history.getdVal symbol) p),
        (rpct.getd symbol).2) := by
  unfold rapid_price_change
  rw [hsym, hp]
  dsimp only
  have h1 : (history.getd symbol).1.getLast? = some last := by
    rw [DMap.getd_fst, hlast]
  rw [h1]
  dsimp only
  rw [if_neg hnz]
  simp only [DMap.getd_fst]

/-- C7: the first trade ever seen for a symbol (empty per-symbol history)
never fires Rapid-Price-Change, whatever its price: the rule records the
price as the symbol's history and returns `False`, leaving the threshold
map untouched. -/
theorem c7_first_sighting (trade_data : TradeRec) (symbol : String) (p : ℚ)
    (history : DMap (List ℚ)) (rpct : DMap ℚ)
    (hsym : trade_data.symbol? = some symbol)
    (hp : trade_data.price? = some p)
    (hfirst : history.getdVal symbol = []) :
    (rapid_price_change trade_data history rpct).1 = .ok false ∧
      (rapid_price_change trade_data history rpct).2.1.getdVal symbol = [p] ∧
      (rapid_price_change trade_data history rpct).2.2 = rpct := by
  rw [rapid_price_change_first trade_data symbol p history rpct hsym hp hfirst]
  exact ⟨rfl, DMap.getdVal_set_self _ _ _, rfl⟩

/-- Witness for C7 at a concrete extreme-priced first trade. -/
theorem c7_witness :
    (⟨some 5, some symX, some 1000000000, some 1⟩ : TradeRec).symbol? =
        some symX ∧
      (rapid_price_change ⟨some 5, some symX, some 1000000000, some 1⟩
          ⟨[], []⟩ ⟨[], 1/20⟩).1 = .ok false :=
  ⟨rfl, (c7_first_sighting ⟨some 5, some symX, some 1000000000, some 1⟩ symX
    1000000000 ⟨[], []⟩ ⟨[], 1/20⟩ rfl rfl rfl).1⟩

/-- C8: both rule thresholds are strict-exceedance boundaries: a size exactly
equal to the symbol's volume threshold does not fire High-Volume while a size
strictly above it does, and a relative price change exactly equal to the
price-change threshold does not fire Rapid-Price-Change while any strictly
larger change does. -/
theorem c8_threshold_boundaries :
    (∀ (td : TradeRec) (symbol : String) (size : ℚ) (m : DMap ℚ),
        td.size? = some size → td.symbol? = some symbol →
        size = m.getdVal symbol → (high_volume_rule td m).1 = .ok false) ∧
      (∀ (td : TradeRec) (symbol : String) (size : ℚ) (m : DMap ℚ),
        td.size? = some size → td.symbol? = some symbol →
        m.getdVal symbol < size → (high_volume_rule td m).1 = .ok true) ∧
      (∀ (td : TradeRec) (symbol : String) (p last : ℚ)
        (history : DMap (List ℚ)) (rpct : DMap ℚ),
        td.symbol? = some symbol → td.price? = some p →
        (history.getdVal symbol).getLast? = some last → last ≠ 0 →
        |(p - last) / last| = rpct.getdVal symbol →
        (rapid_price_change td history rpct).1 = .ok false) ∧
      (∀ (td : TradeRec) (symbol : String) (p last : ℚ)
        (history : DMap (List ℚ)) (rpct : DMap ℚ),
        td.symbol? = some symbol → td.price? = some p →
        (history.getdVal symbol).getLast? = some last → last ≠ 0 →
        rpct.getdVal symbol < |(p - last) / last| →
        (rapid_price_change td history rpct).1 = .ok true) := by
  refine ⟨?_, ?_, ?_, ?_⟩
  · intro td symbol size m hsz hsym heq
    rw [high_volume_rule_eq td symbol size m hsz hsym]
    simp [heq]
  · intro td symbol size m hsz hsym hlt
    rw [high_volume_rule_eq td symbol size m hsz hsym]
    simp [hlt]
  · intro td symbol p last history rpct hsym hp hlast hnz heq
    rw [rapid_price_change_step td symbol p last history rpct hsym hp hlast hnz]
    simp [← heq]
  · intro td symbol p last history rpct hsym hp hlast hnz hlt
    rw [rapid_price_change_step td symbol p last history rpct hsym hp hlast hnz]
    simp [hlt]

/-- Witness for C8 at the default thresholds: size 10000 vs 10001 against the
default volume threshold 10000; a 5% move (100 → 105) vs a 5.0001% move
(100 → 105.0001) against the default price-change threshold 1/20. -/
theorem c8_witness :
    (high_volume_rule ⟨some 6, some symX, some 1, some 10000⟩
        ⟨[], 10000⟩).1 = .ok false ∧
      (high_volume_rule ⟨some 6, some symX, some 1, some 10001⟩
        ⟨[], 10000⟩).1 = .ok true ∧
      (rapid_price_change ⟨some 6, some symX, some 105, some 1⟩
        ⟨[(symX, [100])], []⟩ ⟨[], 1/20⟩).1 = .ok false ∧
      (rapid_price_change ⟨some 6, some symX, some (1050001/10000), some 1⟩
        ⟨[(symX, [100])], []⟩ ⟨[], 1/20⟩).1 = .ok true :=
  ⟨c8_threshold_boundaries.1 _ symX 10000 _ rfl rfl (by decide),
   c8_threshold_boundaries.2.1 _ symX 10001 _ rfl rfl (by decide),
   c8_threshold_boundaries.2.2.1 _ symX 105 100 _ _ rfl rfl (by decide)
     (by decide)
     (by
       show |((105 : ℚ) - 100) / 100| = (1/20 : ℚ)
       rw [abs_of_nonneg (by norm_num)]
       norm_num),
   c8_threshold_boundaries.2.2.2 _ symX (1050001/10000) 100 _ _ rfl rfl
     (by decide) (by decide)
     (by
       show (1/20 : ℚ) < |((1050001 : ℚ)/10000 - 100) / 100|
       rw [abs_of_nonneg (by norm_num)]
       norm_num)⟩

/-- C9 counterexample: evaluating High-Volume on a symbol absent from the
threshold map does NOT leave the threshold map as it was — the defaultdict
read inserts the default entry for that symbol. -/
theorem c9_counterexample :
    (high_volume_rule ⟨some 1, some symX, some 1, some 5⟩ ⟨[], 10000⟩).2 ≠
      ⟨[], 10000⟩ := by decide

/-- C9 as amended: High-Volume computes the pure predicate
`size > threshold[symbol]` and mutates nothing observable: every threshold
lookup yields the same value afterwards, and the only possible change to the
threshold map is the defaultdict's insertion of the default entry for the
trade's symbol.  (It reads no other pipeline state at all: per-symbol price
histories, the global corpus and the seen-sequence set are not passed to it.) -/
theorem c9_high_volume_frame (td : TradeRec) (symbol : String) (size : ℚ)
    (m : DMap ℚ) (hsz : td.size? = some size)
    (hsym : td.symbol? = some symbol) :
    (high_volume_rule td m).1 = .ok (decide (m.getdVal symbol < size)) ∧
      (∀ k, (high_volume_rule td m).2.getdVal k = m.getdVal k) ∧
      ((high_volume_rule td m).2.entries = m.entries ∨
        (high_volume_rule td m).2.entries = m.entries ++ [(symbol, m.dflt)]) ∧
      (high_volume_rule td m).2.dflt = m.dflt := by
  rw [high_volume_rule_eq td symbol size m hsz hsym]
  refine ⟨rfl, fun k => DMap.getd_snd_getdVal m symbol k, ?_,
    DMap.getd_snd_dflt m symbol⟩
  unfold DMap.getd
  cases h : m.entries.lookup symbol with
  | some v => exact .inl rfl
  | none => exact .inr rfl

/-- Witness for C9 (amended) at a fresh symbol and the default threshold. -/
theorem c9_witness :
    (high_volume_rule ⟨some 1, some symX, some 1, some 5⟩ ⟨[], 10000⟩).1 =
        .ok false ∧
      (high_volume_rule ⟨some 1, some symX, some 1, some 5⟩
        ⟨[], 10000⟩).2.getdVal symX = 10000 := by
  have h := c9_high_volume_frame ⟨some 1, some symX, some 1, some 5⟩ symX 5
    ⟨[], 10000⟩ rfl rfl
  refine ⟨?_, ?_⟩
  · rw [h.1]; decide
  · rw [h.2.1 symX]; decide

/-- C2 (code bug, evaluated at the failing input): with a recorded last price
of 0 for the symbol, the Rapid-Price-Change computation divides by zero, the
`ZeroDivisionError` propagates out of `process_trade` to the caller, and no
price is recorded — the rule does not fail closed. -/
theorem c2_zero_last_price_raises :
    (process_trade (fun _ _ _ => 0) (.obj ⟨some 2, some symX, some 1, some 1⟩)
        { initState with transaction_history := ⟨[(symX, [0])], []⟩ }).1.err =
      some .zeroDivisionError := by decide

/-- Warm-up phase of the scorer: with fewer than 100 samples after the append,
the call only appends the price and returns `False`. -/
theorem isolation_warmup (df : DecisionFun) (trade_data : TradeRec) (p : ℚ)
    (s : ScorerState) (hp : trade_data.price? = some p)
    (hlen : s.fit_prices.length + 1 < 100) :
    isolation_forest_anomaly df trade_data s =
      (.ok false, { s with fit_prices := s.fit_prices ++ [p] }) := by
  unfold isolation_forest_anomaly
  rw [hp]
  dsimp only
  rw [if_pos (by simpa using hlen)]

/-- C5: while fewer than 100 global samples have been observed (counting the
current trade's price, which is appended first), the scorer returns
"not anomalous" whatever the price: no scoring happens, the model and the
fitted flag are untouched, and only the corpus grows. -/
theorem c5_warmup_gating (df : DecisionFun) (trade_data : TradeRec) (p : ℚ)
    (s : ScorerState) (hp : trade_data.price? = some p)
    (hlen : s.fit_prices.length + 1 < 100) :
    (isolation_forest_anomaly df trade_data s).1 = .ok false ∧
      (isolation_forest_anomaly df trade_data s).2 =
        { s with fit_prices := s.fit_prices ++ [p] } := by
  rw [isolation_warmup df trade_data p s hp hlen]
  exact ⟨rfl, rfl⟩

/-- Witness for C5: an extreme price on an empty corpus is not flagged. -/
theorem c5_witness :
    (isolation_forest_anomaly (fun _ _ _ => 0)
        ⟨some 4, some symX, some 1000000000, some 1⟩ ⟨[], false, none⟩).1 =
      .ok false :=
  (c5_warmup_gating (fun _ _ _ => 0) _ 1000000000 ⟨[], false, none⟩ rfl
    (by decide)).1

/-- Fit point of the scorer with a non-degenerate corpus: the model is refit
on the whole corpus, `is_fitted` is set, and the fresh model scores the trade. -/
theorem isolation_fit (df : DecisionFun) (trade_data : TradeRec) (p : ℚ)
    (s : ScorerState) (hp : trade_data.price? = some p)
    (hlen : ¬(s.fit_prices ++ [p]).length < 100)
    (hmod : (s.fit_prices ++ [p]).length % 1000 = 0)
    (hvar : npVar (s.fit_prices ++ [p]) ≠ 0) :
    isolation_forest_anomaly df trade_data s =
      (.ok (decide (df (some (s.fit_prices ++ [p])) p (s.fit_prices ++ [p]) < 0)),
        ⟨s.fit_prices ++ [p], true, some (s.fit_prices ++ [p])⟩) := by
  unfold isolation_forest_anomaly
  rw [hp]
  dsimp only
  rw [if_neg hlen, if_pos hmod, if_neg hvar]

/-- Fit point of the scorer with a zero-variance corpus: normalising divides
by a zero standard deviation, the corpus becomes NaN, and the refit raises
`ValueError`; the corpus keeps the appended price but no model appears. -/
theorem isolation_fit_degenerate (df : DecisionFun) (trade_data : TradeRec)
    (p : ℚ) (s : ScorerState) (hp : trade_data.price? = some p)
    (hlen : ¬(s.fit_prices ++ [p]).length < 100)
    (hmod : (s.fit_prices ++ [p]).length % 1000 = 0)
    (hvar : npVar (s.fit_prices ++ [p]) = 0) :
    isolation_forest_anomaly df trade_data s =
      (.raised .valueError, { s with fit_prices := s.fit_prices ++ [p] }) := by
  unfold isolation_forest_anomaly
  rw [hp]
  dsimp only
  rw [if_neg hlen, if_pos hmod, if_pos hvar]

/-- All members of a constant-plus-repeat corpus are equal to the constant. -/
theorem mem_replicate_concat (n : Nat) (a x : ℚ)
    (hx : x ∈ List.replicate n a ++ [a]) : x = a := by
  rcases List.mem_append.mp hx with h | h
  · exact (List.mem_replicate.mp h).2
  · simpa using h

/-- C6 as amended: a refit occurs exactly when the sample count after the
append is a multiple of 1000 that is at least 100 AND the corpus has nonzero
variance (at a zero-variance corpus the refit attempt raises instead — the C3
defect); the transition to Fitted is permanent; and a call that leaves the
scorer unfitted returns "not anomalous" whenever it does not hit the
degenerate raise. -/
theorem c6_retrain_cadence (df : DecisionFun) (trade_data : TradeRec) (p : ℚ)
    (s : ScorerState) (hp : trade_data.price? = some p) :
    (100 ≤ (s.fit_prices ++ [p]).length →
      (s.fit_prices ++ [p]).length % 1000 = 0 →
      npVar (s.fit_prices ++ [p]) ≠ 0 →
      (isolation_forest_anomaly df trade_data s).2.model =
          some (s.fit_prices ++ [p]) ∧
        (isolation_forest_anomaly df trade_data s).2.is_fitted = true) ∧
      (¬((s.fit_prices ++ [p]).length % 1000 = 0 ∧
          100 ≤ (s.fit_prices ++ [p]).length) →
        (isolation_forest_anomaly df trade_data s).2.model = s.model ∧
          (isolation_forest_anomaly df trade_data s).2.is_fitted = s.is_fitted) ∧
      (s.is_fitted = true →
        (isolation_forest_anomaly df trade_data s).2.is_fitted = true) ∧
      ((s.fit_prices ++ [p]).length < 100 ∨ npVar (s.fit_prices ++ [p]) ≠ 0 →
        (isolation_forest_anomaly df trade_data s).2.is_fitted = false →
        (isolation_forest_anomaly df trade_data s).1 = .ok false) := by
  by_cases h1 : (s.fit_prices ++ [p]).length < 100
  · rw [isolation_warmup df trade_data p s hp (by simpa using h1)]
    exact ⟨fun hge _ _ => absurd h1 (by omega), fun _ => ⟨rfl, rfl⟩,
      fun hf => hf, fun _ _ => rfl⟩
  · by_cases h2 : (s.fit_prices ++ [p]).length % 1000 = 0
    · by_cases h3 : npVar (s.fit_prices ++ [p]) = 0
      · rw [isolation_fit_degenerate df trade_data p s hp h1 h2 h3]
        refine ⟨fun _ _ hv => absurd h3 hv,
          fun hn => absurd ⟨h2, by omega⟩ hn, fun hf => hf, fun hnd _ => ?_⟩
        rcases hnd with h | h
        · exact absurd h h1
        · exact absurd h3 h
      · rw [isolation_fit df trade_data p s hp h1 h2 h3]
        exact ⟨fun _ _ _ => ⟨rfl, rfl⟩, fun hn => absurd ⟨h2, by omega⟩ hn,
          fun _ => rfl, fun _ hfit => by cases hfit⟩
    · unfold isolation_forest_anomaly
      rw [hp]
      dsimp only
      rw [if_neg h1, if_neg h2]
      by_cases h4 : s.is_fitted
      · rw [if_pos h4]
        by_cases h5 : npVar (s.fit_prices ++ [p]) = 0
        · rw [if_pos h5]
          refine ⟨fun _ hm _ => absurd hm h2,
            fun _ => ⟨rfl, rfl⟩, fun hf => hf, fun hnd hfit => ?_⟩
          rcases hnd with h | h
          · exact absurd h h1
          · exact absurd h5 h
        · rw [if_neg h5]
          refine ⟨fun _ hm _ => absurd hm h2,
            fun _ => ⟨rfl, rfl⟩, fun hf => hf, fun _ hfit => ?_⟩
          exact absurd hfit (by simpa using h4)
      · rw [if_neg h4]
        refine ⟨fun _ hm _ => absurd hm h2,
          fun _ => ⟨rfl, rfl⟩, fun hf => absurd hf (by simpa using h4),
          fun _ _ => rfl⟩

/-- C6 counterexample (the claim as stated): at the 1000th sample of a
constant-price corpus the count is a multiple of 1000 that is at least 100,
yet NO refit occurs — the fit raises and the scorer stays unfitted with no
model. -/
theorem c6_counterexample :
    ((List.replicate 999 (5:ℚ) ++ [5]).length % 1000 = 0 ∧
        100 ≤ (List.replicate 999 (5:ℚ) ++ [5]).length) ∧
      (isolation_forest_anomaly (fun _ _ _ => 0)
          ⟨some 3, some symX, some 5, some 1⟩
          ⟨List.replicate 999 5, false, none⟩).2.is_fitted = false ∧
      (isolation_forest_anomaly (fun _ _ _ => 0)
          ⟨some 3, some symX, some 5, some 1⟩
          ⟨List.replicate 999 5, false, none⟩).2.model = none := by
  have hvar : npVar (List.replicate 999 (5:ℚ) ++ [5]) = 0 :=
    npVar_const 5 _ (mem_replicate_concat 999 5)
  rw [isolation_fit_degenerate (fun _ _ _ => 0)
    ⟨some 3, some symX, some 5, some 1⟩ 5 ⟨List.replicate 999 5, false, none⟩
    rfl
    (by dsimp only
        simp only [List.length_append, List.length_replicate,
          List.length_cons, List.length_nil]
        all_goals omega)
    (by dsimp only
        simp only [List.length_append, List.length_replicate,
          List.length_cons, List.length_nil])
    hvar]
  refine ⟨⟨?_, ?_⟩, rfl, rfl⟩
  · simp only [List.length_append, List.length_replicate,
      List.length_cons, List.length_nil]
  · simp only [List.length_append, List.length_replicate,
      List.length_cons, List.length_nil]
    all_goals omega

/-- Witness for C6 (amended): on a non-constant corpus reaching exactly 1000
samples, the refit does occur and the scorer becomes fitted. -/
theorem c6_witness :
    (isolation_forest_anomaly (fun _ _ _ => 0)
        ⟨some 3, some symX, some 5, some 1⟩
        ⟨6 :: List.replicate 998 5, false, none⟩).2.is_fitted = true := by
  have h := (c6_retrain_cadence (fun _ _ _ => 0)
    ⟨some 3, some symX, some 5, some 1⟩ 5
    ⟨6 :: List.replicate 998 5, false, none⟩ rfl).1
  refine (h ?_ ?_ ?_).2
  · dsimp only
    simp only [List.length_append, List.length_replicate,
      List.length_cons, List.length_nil]
    all_goals omega
  · dsimp only
    simp only [List.length_append, List.length_replicate,
      List.length_cons, List.length_nil]
  · refine npVar_ne_zero 6 5 _ ?_ ?_ (by norm_num)
    · exact List.mem_append.mpr (.inl (List.mem_cons_self 6 _))
    · exact List.mem_append.mpr (.inr (List.mem_singleton.mpr rfl))

/-- C3 (code bug, evaluated at the failing input): when the global corpus has
zero standard deviation (here 1000 identical prices), the scorer does not
fail closed to "not anomalous": the corpus is normalised by the zero standard
deviation (NaN) and the refit raises `ValueError`, which propagates. -/
theorem c3_zero_std_raises :
    (isolation_forest_anomaly (fun _ _ _ => 0)
        ⟨some 3, some symX, some 5, some 1⟩
        ⟨List.replicate 999 5, false, none⟩).1 = .raised .valueError := by
  rw [isolation_fit_degenerate (fun _ _ _ => 0)
    ⟨some 3, some symX, some 5, some 1⟩ 5 ⟨List.replicate 999 5, false, none⟩
    rfl
    (by dsimp only
        simp only [List.length_append, List.length_replicate,
          List.length_cons, List.length_nil]
        all_goals omega)
    (by dsimp only
        simp only [List.length_append, List.length_replicate,
          List.length_cons, List.length_nil])
    (npVar_const 5 _ (mem_replicate_concat 999 5))]

/-! ### The orchestrator: dedup, decode failures, no field validation -/

/-- A duplicate sequence is dropped silently before anything is touched. -/
theorem process_trade_duplicate (df : DecisionFun) (trade_data : TradeRec)
    (q : Nat) (σ : PipelineState) (hq : trade_data.sequence? = some q)
    (hin : q ∈ σ.processed_sequence) :
    process_trade df (.obj trade_data) σ = (⟨none, none⟩, σ) := by
  unfold process_trade
  dsimp only
  rw [hq]
  dsimp only
  rw [if_pos hin]

/-- After any call on a record with sequence `q`, `q` is in the seen set:
it is recorded before the rules run, even when a rule later raises. -/
theorem process_trade_mem_seen (df : DecisionFun) (trade_data : TradeRec)
    (q : Nat) (σ : PipelineState) (hq : trade_data.sequence? = some q) :
    q ∈ (process_trade df (.obj trade_data) σ).2.processed_sequence := by
  by_cases hin : q ∈ σ.processed_sequence
  · rw [process_trade_duplicate df trade_data q σ hq hin]
    exact hin
  · unfold process_trade
    dsimp only
    rw [hq]
    dsimp only
    rw [if_neg hin]
    repeat' split
    all_goals exact List.mem_cons_self _ _

/-- C1: dedup idempotence — after a trade with sequence `q` has been
submitted once, submitting it again is dropped by the `sequence in
processed_sequence` check before any rule state is mutated and before any
publish: the repeat call emits nothing, raises nothing, and leaves every
piece of state exactly as it was. -/
theorem c1_dedup_idempotent (df : DecisionFun) (trade_data : TradeRec)
    (q : Nat) (σ : PipelineState) (hq : trade_data.sequence? = some q) :
    process_trade df (.obj trade_data)
        ((process_trade df (.obj trade_data) σ).2) =
      (⟨none, none⟩, (process_trade df (.obj trade_data) σ).2) :=
  process_trade_duplicate df trade_data q _ hq
    (process_trade_mem_seen df trade_data q σ hq)

/-- Witness for C1 on a concrete trade resubmitted from the initial state. -/
theorem c1_witness :
    process_trade (fun _ _ _ => 0) (.obj ⟨some 1, some symX, some 100, some 50⟩)
        ((process_trade (fun _ _ _ => 0)
          (.obj ⟨some 1, some symX, some 100, some 50⟩) initState).2) =
      (⟨none, none⟩,
        (process_trade (fun _ _ _ => 0)
          (.obj ⟨some 1, some symX, some 100, some 50⟩) initState).2) :=
  c1_dedup_idempotent (fun _ _ _ => 0) ⟨some 1, some symX, some 100, some 50⟩
    1 initState rfl

/-- C4 counterexample: a payload that decodes to JSON but is not a
well-formed trade record (here only the `sequence` field) is malformed in
the claim's sense, yet `process_trade` mutates state (the sequence is
recorded as seen) and the `KeyError` escapes to the caller. -/
theorem c4_counterexample :
    (process_trade (fun _ _ _ => 0) (.obj ⟨some 7, none, none, none⟩)
        initState).1.err = some .keyError ∧
      (process_trade (fun _ _ _ => 0) (.obj ⟨some 7, none, none, none⟩)
        initState).2.processed_sequence = [7] := by
  exact ⟨rfl, rfl⟩

/-- C4 as amended: only payloads that fail JSON decoding are dropped cleanly —
for those, `process_trade` emits nothing, mutates nothing and propagates no
error (the decode failure is caught and logged); a payload that decodes but
lacks a required field instead raises an uncaught `KeyError`, after recording
the sequence as seen when the `sequence` field is present. -/
theorem c4_malformed_dropped (df : DecisionFun) (σ : PipelineState) :
    process_trade df .malformedText σ = (⟨none, none⟩, σ) := rfl

/-- Off the fit cadence with a non-degenerate corpus, the scorer returns
normally and only the corpus changes. -/
theorem isolation_nofit_ok (df : DecisionFun) (trade_data : TradeRec) (p : ℚ)
    (s : ScorerState) (hp : trade_data.price? = some p)
    (hlen : ¬(s.fit_prices ++ [p]).length < 100)
    (hmod : ¬(s.fit_prices ++ [p]).length % 1000 = 0)
    (hvar : npVar (s.fit_prices ++ [p]) ≠ 0) :
    ∃ b, isolation_forest_anomaly df trade_data s =
      (.ok b, { s with fit_prices := s.fit_prices ++ [p] }) := by
  unfold isolation_forest_anomaly
  rw [hp]
  dsimp only
  rw [if_neg hlen, if_neg hmod]
  by_cases h4 : s.is_fitted
  · rw [if_pos h4, if_neg hvar]
    exact ⟨_, rfl⟩
  · rw [if_neg h4]
    exact ⟨false, rfl⟩

/-- Whenever the corpus is still warming up or has nonzero variance, the
scorer call returns normally and appends exactly the trade's price. -/
theorem isolation_ok_of (df : DecisionFun) (trade_data : TradeRec) (p : ℚ)
    (s : ScorerState) (hp : trade_data.price? = some p)
    (hsc : (s.fit_prices ++ [p]).length < 100 ∨
      npVar (s.fit_prices ++ [p]) ≠ 0) :
    ∃ b s', isolation_forest_anomaly df trade_data s = (.ok b, s') ∧
      s'.fit_prices = s.fit_prices ++ [p] := by
  by_cases h1 : (s.fit_prices ++ [p]).length < 100
  · rw [isolation_warmup df trade_data p s hp (by simpa using h1)]
    exact ⟨false, _, rfl, rfl⟩
  · have hvar : npVar (s.fit_prices ++ [p]) ≠ 0 := by tauto
    by_cases h2 : (s.fit_prices ++ [p]).length % 1000 = 0
    · rw [isolation_fit df trade_data p s hp h1 h2 hvar]
      exact ⟨_, _, rfl, rfl⟩
    · obtain ⟨b, hb⟩ := isolation_nofit_ok df trade_data p s hp h1 h2 hvar
      rw [hb]
      exact ⟨b, _, rfl, rfl⟩

/-- Whenever the symbol's recorded last price is not zero (or no price is
recorded), Rapid-Price-Change returns normally and the symbol's history ends
with the trade's price. -/
theorem rapid_ok_of (trade_data : TradeRec) (symbol : String) (p : ℚ)
    (history : DMap (List ℚ)) (rpct : DMap ℚ)
    (hsym : trade_data.symbol? = some symbol)
    (hp : trade_data.price? = some p)
    (hlast : (history.getdVal symbol).getLast? ≠ some 0) :
    ∃ b h' r', rapid_price_change trade_data history rpct = (.ok b, h', r') ∧
      (h'.getdVal symbol).getLast? = some p := by
  cases hl : (history.getdVal symbol).getLast? with
  | none =>
    have hempty : history.getdVal symbol = [] :=
      List.getLast?_eq_none_iff.mp hl
    rw [rapid_price_change_first trade_data symbol p history rpct hsym hp
      hempty]
    refine ⟨false, _, _, rfl, ?_⟩
    rw [DMap.getdVal_set_self]
    rfl
  | some last =>
    have hnz : last ≠ 0 := fun h => hlast (h ▸ hl)
    rw [rapid_price_change_step trade_data symbol p last history rpct hsym hp
      hl hnz]
    refine ⟨_, _, _, rfl, ?_⟩
    rw [DMap.getdVal_set_self, dequePush_getLast?]

/-- C10: `process_trade` performs no validation of field values: any record
carrying the four keys is processed by all three detectors exactly as a
well-formed trade would be — nothing constrains the signs of `price` or
`size`, and the (possibly zero or negative) price is appended to the
per-symbol history and to the global corpus.  The hypotheses only exclude
prior states on which any trade, well-formed or not, would hit the
independent C2/C3 defects. -/
theorem c10_no_validation (df : DecisionFun) (q : Nat) (symbol : String)
    (p size : ℚ) (σ : PipelineState)
    (hq : q ∉ σ.processed_sequence)
    (hlast : (σ.transaction_history.getdVal symbol).getLast? ≠ some 0)
    (hsc : (σ.scorer.fit_prices ++ [p]).length < 100 ∨
      npVar (σ.scorer.fit_prices ++ [p]) ≠ 0) :
    (process_trade df (.obj ⟨some q, some symbol, some p, some size⟩)
          σ).1.err = none ∧
      (process_trade df (.obj ⟨some q, some symbol, some p, some size⟩)
          σ).2.scorer.fit_prices = σ.scorer.fit_prices ++ [p] ∧
      ((process_trade df (.obj ⟨some q, some symbol, some p, some size⟩)
          σ).2.transaction_history.getdVal symbol).getLast? = some p := by
  obtain ⟨b, h', r', hr, hlastp⟩ := rapid_ok_of
    ⟨some q, some symbol, some p, some size⟩ symbol p σ.transaction_history
    σ.rapid_price_change_threshold rfl rfl hlast
  obtain ⟨c, s', hs, hfp⟩ := isolation_ok_of df
    ⟨some q, some symbol, some p, some size⟩ p σ.scorer rfl hsc
  unfold process_trade
  dsimp only
  rw [if_neg hq]
  rw [high_volume_rule_eq ⟨some q, some symbol, some p, some size⟩ symbol size
    σ.high_volume_threshold rfl rfl]
  dsimp only
  rw [hr]
  dsimp only
  rw [hs]
  dsimp only
  repeat' split
  all_goals exact ⟨rfl, hfp, hlastp⟩

/-- Witness for C10: a trade with negative price and negative size is
processed from the initial state, and its price lands in the corpus. -/
theorem c10_witness :
    (process_trade (fun _ _ _ => 0)
        (.obj ⟨some 9, some symX, some (-3), some (-7)⟩) initState).1.err =
        none ∧
      (process_trade (fun _ _ _ => 0)
        (.obj ⟨some 9, some symX, some (-3), some (-7)⟩)
        initState).2.scorer.fit_prices = [-3] :=
  ⟨(c10_no_validation (fun _ _ _ => 0) 9 symX (-3) (-7) initState
      (by decide) (by decide) (.inl (by decide))).1,
    (c10_no_validation (fun _ _ _ => 0) 9 symX (-3) (-7) initState
      (by decide) (by decide) (.inl (by decide))).2.1⟩

end StockAnomaly
